import Mathlib

/-!
Verification of the solid-allotment sizing components.

The development shallowly embeds the two given source files (the `Allotment`
component with its `setSashSize` helper, and `pane-view.ts` with its layout
strategies) together with the parts of the split-view engine that are only
described by the design document.  JavaScript numbers are modelled exactly:
a value is NaN, one of the two infinities, or a rational; the claims under
study never depend on floating-point rounding.  JS `undefined` is modelled
as `Option.none`.
-/

namespace Allotment

/-- A JavaScript number value: NaN, an infinity, or a finite value (modelled
exactly as a rational). -/
inductive JSNum where
  | nan
  | posInf
  | negInf
  | num (q : ℚ)
deriving DecidableEq, Repr

/-- JS `typeof x === "number"` for a value `x` that the type system already
restricts to `number`: it is true for every such value, NaN and the
infinities included. -/
def jsTypeofNumber (_ : JSNum) : Bool := true

/-- JS `<=` on numbers: any comparison with NaN is false; otherwise the
usual extended-real order. -/
def jsLe : JSNum → JSNum → Bool
  | .nan, _ => false
  | _, .nan => false
  | .negInf, _ => true
  | _, .posInf => true
  | .posInf, _ => false
  | .num _, .negInf => false
  | .num a, .num b => decide (a ≤ b)

/-- JS division of a number by the literal 100 (`x / 100`): NaN and the
infinities are fixed, finite values divide exactly. -/
def jsDiv100 : JSNum → JSNum
  | .nan => .nan
  | .posInf => .posInf
  | .negInf => .negInf
  | .num q => .num (q / 100)

/-- JS multiplication of a number by a finite number (the layout context's
current size): NaN propagates, an infinity times zero is NaN. -/
def jsMulQ : JSNum → ℚ → JSNum
  | .nan, _ => .nan
  | .posInf, q => if 0 < q then .posInf else if q < 0 then .negInf else .nan
  | .negInf, q => if 0 < q then .negInf else if q < 0 then .posInf else .nan
  | .num p, q => .num (p * q)

/-- The whitespace characters recognized by the model of JS string trimming
(the ASCII fragment of the WhiteSpace and LineTerminator productions). -/
def isJsWhitespace (c : Char) : Bool :=
  c = ' ' || c = '\t' || c = '\n' || c = '\r' || c = '\x0b' || c = '\x0c'

/-- JS `String.prototype.trim` on a character list. -/
def jsTrimList (cs : List Char) : List Char :=
  ((cs.dropWhile isJsWhitespace).reverse.dropWhile isJsWhitespace).reverse

/-- JS `String.prototype.trim`. -/
def jsTrim (s : String) : String := String.mk (jsTrimList s.toList)

/-- Modelled from the spec: the string helper `endsWith(str, suffix)` imported
from the missing `helpers/string` module, used for "a string ending in `%`"
and "ending in a recognized absolute-unit suffix". -/
def endsWith (s suffix : String) : Bool :=
  suffix.toList.isSuffixOf s.toList

/-- JS `String.prototype.slice(0, -n)`: the string with its last `n`
characters removed (character-list model, so that proofs reduce). -/
def sliceDropRight (s : String) (n : ℕ) : String :=
  String.mk (s.toList.take (s.toList.length - n))

/-- Value of a list of decimal digit characters. -/
def digitsVal (cs : List Char) : ℕ :=
  cs.foldl (fun acc c => 10 * acc + (c.toNat - 48)) 0

/-- Value of an unsigned decimal literal with integer part `intPart` and
fraction part `fracPart` (either may be empty, not both). -/
def decValue (intPart fracPart : List Char) : ℚ :=
  (digitsVal intPart : ℚ) + (digitsVal fracPart : ℚ) / (10 : ℚ) ^ fracPart.length

/-- Longest-prefix parse of an unsigned decimal literal (`digits`,
`digits.digits`, `digits.` or `.digits`); returns its value and the unread
remainder, or `none` when no digit is present. -/
def parseUnsigned (cs : List Char) : Option (ℚ × List Char) :=
  let d1 := cs.takeWhile Char.isDigit
  let r1 := cs.dropWhile Char.isDigit
  match r1 with
  | '.' :: r2 =>
      let d2 := r2.takeWhile Char.isDigit
      let r3 := r2.dropWhile Char.isDigit
      if d1.isEmpty && d2.isEmpty then none
      else some (decValue d1 d2, r3)
  | _ => if d1.isEmpty then none else some (decValue d1 [], r1)

/-- Longest-prefix parse of an optionally signed decimal literal. -/
def parseSigned (cs : List Char) : Option (ℚ × List Char) :=
  match cs with
  | '-' :: rest => (parseUnsigned rest).map (fun p => (-p.1, p.2))
  | '+' :: rest => parseUnsigned rest
  | _ => parseUnsigned cs

/-- The JS `Number(string)` conversion, on the fragment the code exercises:
the whole trimmed string must be a decimal literal (exponents and radix
prefixes are outside the model and map to NaN); the empty string is 0 and
the `Infinity` literals are the infinities. -/
def jsNumber (s : String) : JSNum :=
  let cs := jsTrimList s.toList
  if cs.isEmpty then .num 0
  else if cs = ("Infinity").toList || cs = ("+Infinity").toList then .posInf
  else if cs = ("-Infinity").toList then .negInf
  else
    match parseSigned cs with
    | some (q, []) => .num q
    | _ => .nan

/-- The JS `Number.parseFloat(string)` conversion, on the same fragment:
leading whitespace is skipped, the longest decimal-literal prefix is taken,
and NaN results when no prefix parses. -/
def jsParseFloat (s : String) : JSNum :=
  let cs := s.toList.dropWhile isJsWhitespace
  if ("Infinity").toList.isPrefixOf cs || ("+Infinity").toList.isPrefixOf cs then .posInf
  else if ("-Infinity").toList.isPrefixOf cs then .negInf
  else
    match parseSigned cs with
    | some (q, _) => .num q
    | none => .nan

/-- lodash `clamp(number, lower, upper)`: the number capped at `upper`, then
raised to `lower`. -/
def clamp (n lower upper : ℚ) : ℚ :=
  max lower (min n upper)

/-- The observable effect of `setSashSize` from allotment.tsx: the CSS
variable writes and the `setGlobalSashSize` call, recorded as a value. -/
structure SashSizeEffect where
  sashSize : ℚ
  hoverSize : ℚ
  globalSashSize : ℚ
deriving DecidableEq, Repr

/-- `setSashSize(sashSize)` from allotment.tsx: clamps the argument to
`[4, 20]` for `--sash-size` and to `[1, 8]` for `--sash-hover-size`, and
passes the former to `setGlobalSashSize`. -/
def setSashSize (sashSize : ℚ) : SashSizeEffect :=
  let size := clamp sashSize 4 20
  let hoverSize := clamp sashSize 1 8
  { sashSize := size, hoverSize := hoverSize, globalSashSize := size }

/-- Modelled from the spec: `priority: enum {Low, Normal, High}` — the
`LayoutPriority` enum lives in the split-view module, which is not among the
given sources. -/
inductive LayoutPriority where
  | Low
  | Normal
  | High
deriving DecidableEq, Repr

/-- The three layout-strategy classes of pane-view.ts as a tagged variant.
In the source, `ProportionLayout` captures a reference to the layout
service; in the model the service's current size is passed to
`getPreferredSize` instead. -/
inductive Layout where
  | PixelLayout (size : JSNum)
  | ProportionLayout (proportion : JSNum)
  | NullLayout
deriving DecidableEq, Repr

/-- `getPreferredSize` of the three strategies; `layoutSize` is the layout
service's current size (`this.layoutService.getSize()`), and `none` is JS
`undefined`. -/
def Layout.getPreferredSize : Layout → ℚ → Option JSNum
  | .PixelLayout size, _ => some size
  | .ProportionLayout proportion, layoutSize => some (jsMulQ proportion layoutSize)
  | .NullLayout, _ => none

/-- The TS type `number | string | undefined` of a preferred-size
declaration. -/
inductive PreferredSizeValue where
  | num (n : JSNum)
  | str (s : String)
  | undef
deriving DecidableEq, Repr

/-- The strategy installed by the `preferredSize` setter of `PaneView`
(pane-view.ts): numbers become `PixelLayout`; strings are trimmed, a `%`
suffix builds `ProportionLayout` from `Number(...)/100`, a `px` suffix
builds `PixelLayout` from `Number(...)/100`, otherwise the
`typeof Number.parseFloat(...) === "number"` guard selects
`PixelLayout(Number.parseFloat(...))`, with `NullLayout` as the remaining
fallbacks. -/
def setterStrategy (preferredSize : PreferredSizeValue) : Layout :=
  match preferredSize with
  | .num n => .PixelLayout n
  | .str s =>
      let trimmedPreferredSize := jsTrim s
      if endsWith trimmedPreferredSize ("%") then
        .ProportionLayout (jsDiv100 (jsNumber (sliceDropRight trimmedPreferredSize 1)))
      else if endsWith trimmedPreferredSize ("px") then
        .PixelLayout (jsDiv100 (jsNumber (sliceDropRight trimmedPreferredSize 2)))
      else if jsTypeofNumber (jsParseFloat trimmedPreferredSize) then
        .PixelLayout (jsParseFloat trimmedPreferredSize)
      else
        .NullLayout
  | .undef => .NullLayout

/-- The strategy installed by the `PaneView` constructor's handling of
`options.preferredSize` (pane-view.ts), embedded separately from the setter
because the source spells the logic out twice. -/
def constructorStrategy (preferredSize : PreferredSizeValue) : Layout :=
  match preferredSize with
  | .num n => .PixelLayout n
  | .str s =>
      let trimmed := jsTrim s
      if endsWith trimmed ("%") then
        .ProportionLayout (jsDiv100 (jsNumber (sliceDropRight trimmed 1)))
      else if endsWith trimmed ("px") then
        .PixelLayout (jsDiv100 (jsNumber (sliceDropRight trimmed 2)))
      else if jsTypeofNumber (jsParseFloat trimmed) then
        .PixelLayout (jsParseFloat trimmed)
      else
        .NullLayout
  | .undef => .NullLayout

/-- The mutable fields of a `PaneView` (pane-view.ts); the `element` handle
and the captured layout-service reference carry no sizing state and are
omitted. -/
structure PaneView where
  _minimumSize : JSNum
  _maximumSize : JSNum
  _priority : Option LayoutPriority
  _snap : Bool
  layoutStrategy : Layout
deriving DecidableEq, Repr

/-- The `preferredSize` getter: `this.layoutStrategy.getPreferredSize()`. -/
def PaneView.preferredSize (pv : PaneView) (layoutSize : ℚ) : Option JSNum :=
  pv.layoutStrategy.getPreferredSize layoutSize

/-- The `preferredSize` setter. -/
def PaneView.setPreferredSize (pv : PaneView) (preferredSize : PreferredSizeValue) : PaneView :=
  { pv with layoutStrategy := setterStrategy preferredSize }

/-- The `minimumSize` setter:
`typeof minimumSize === "number" ? minimumSize : 30`. -/
def PaneView.setMinimumSize (pv : PaneView) (minimumSize : Option JSNum) : PaneView :=
  { pv with _minimumSize :=
      match minimumSize with
      | some n => n
      | none => .num 30 }

/-- The `maximumSize` setter:
`typeof maximumSize === "number" ? maximumSize : Number.POSITIVE_INFINITY`. -/
def PaneView.setMaximumSize (pv : PaneView) (maximumSize : Option JSNum) : PaneView :=
  { pv with _maximumSize :=
      match maximumSize with
      | some n => n
      | none => .posInf }

/-- The `priority` setter: `this._priority = priority ?? LayoutPriority.Normal`. -/
def PaneView.setPriority (pv : PaneView) (priority : Option LayoutPriority) : PaneView :=
  { pv with _priority := some (priority.getD .Normal) }

/-- The `snap` setter: `typeof snap === "boolean" ? snap : false`. -/
def PaneView.setSnap (pv : PaneView) (snap : Option Bool) : PaneView :=
  { pv with _snap := snap.getD false }

/-- The `minimumSize` getter. -/
def PaneView.minimumSize (pv : PaneView) : JSNum := pv._minimumSize

/-- The `maximumSize` getter. -/
def PaneView.maximumSize (pv : PaneView) : JSNum := pv._maximumSize

/-- The `priority` getter. -/
def PaneView.priority (pv : PaneView) : Option LayoutPriority := pv._priority

/-- The `snap` getter. -/
def PaneView.snap (pv : PaneView) : Bool := pv._snap

/-- `PaneViewOptions` (pane-view.ts) minus the `element` handle; a missing
optional field is `none` / `PreferredSizeValue.undef`. -/
structure PaneViewOptions where
  minimumSize : Option JSNum
  maximumSize : Option JSNum
  priority : Option LayoutPriority
  preferredSize : PreferredSizeValue
  snap : Option Bool
deriving DecidableEq, Repr

/-- The `PaneView` constructor: fields start at their declared initial
values (`_minimumSize = 0`, `_maximumSize = +∞`, `_priority = undefined`,
`_snap = false`), then the constructor runs the `minimumSize` and
`maximumSize` setters, installs the strategy chosen by its inline
preferred-size logic, and runs the `priority` and `snap` setters. The
declaration gives `layoutStrategy` no initial value (definite assignment
in the constructor); `NullLayout` below is a placeholder that every
constructor path overwrites. -/
def PaneView.construct (options : PaneViewOptions) : PaneView :=
  let pv0 : PaneView :=
    { _minimumSize := .num 0
      _maximumSize := .posInf
      _priority := none
      _snap := false
      layoutStrategy := .NullLayout }
  let pv1 := pv0.setMinimumSize options.minimumSize
  let pv2 := pv1.setMaximumSize options.maximumSize
  let pv3 := { pv2 with layoutStrategy := constructorStrategy options.preferredSize }
  let pv4 := pv3.setPriority options.priority
  pv4.setSnap options.snap

/-! The Split-View Engine.  Its module is not among the given sources, so
the definitions below are modelled from the spec's §3 data model and §4.3
operation descriptions.  Sizes are exact rationals, so the "rounding
tolerance" the spec allows is identically zero here. -/

/-- Modelled from the spec: a pane as the engine sees it — the bound fields
of the data model together with its current size; `maximumSize = none` is
+∞.  The priority class and snap flag only select which panes absorb a
delta first, which is irrelevant to the size total, so the model cascades
deltas in sequence order and omits them. -/
structure EPane where
  minimumSize : ℚ
  maximumSize : Option ℚ
  currentSize : ℚ
deriving DecidableEq, Repr

/-- Modelled from the spec: the Split-View Engine state — the ordered pane
sequence and the container extent along the layout axis. -/
structure EngineState where
  panes : List EPane
  containerSize : ℚ
deriving DecidableEq, Repr

/-- The total of the panes' current sizes. -/
def sizesSum (ps : List EPane) : ℚ := (ps.map EPane.currentSize).sum

/-- Modelled from the spec: clamping a requested size to a pane's
`[minimumSize, maximumSize]` bounds. -/
def clampPane (p : EPane) (size : ℚ) : ℚ :=
  match p.maximumSize with
  | none => max p.minimumSize size
  | some m => max p.minimumSize (min size m)

/-- Modelled from the spec ("clamped per-pane to `[minimumSize,
maximumSize]`; any residual unclamped delta cascades to the next eligible
pane"): the part of a signed delta one pane absorbs within its bounds. -/
def paneAbsorb (p : EPane) (d : ℚ) : ℚ :=
  if 0 ≤ d then
    match p.maximumSize with
    | none => d
    | some m => min d (max 0 (m - p.currentSize))
  else
    -(min (-d) (max 0 (p.currentSize - p.minimumSize)))

/-- Cascading a signed delta along a run of panes: each pane absorbs what
its bounds allow and the rest moves on; returns the adjusted panes and the
unabsorbed remainder. -/
def cascade : List EPane → ℚ → List EPane × ℚ
  | [], d => ([], d)
  | p :: rest, d =>
      let t := paneAbsorb p d
      let pr := cascade rest (d - t)
      ({ p with currentSize := p.currentSize + t } :: pr.1, pr.2)

/-- Total capacity of a run of panes to shrink toward their minima. -/
def totalShrink (ps : List EPane) : ℚ :=
  (ps.map (fun p => max 0 (p.currentSize - p.minimumSize))).sum

/-- Total capacity of a run of panes to grow toward their maxima (`none`
when some pane is unbounded). -/
def totalGrow : List EPane → Option ℚ
  | [] => some 0
  | p :: rest =>
      match p.maximumSize, totalGrow rest with
      | none, _ => none
      | _, none => none
      | some m, some a => some (max 0 (m - p.currentSize) + a)

/-- The amount of a requested transfer `d ≥ 0` that can actually flow out
of the `giving` run (shrinking it) into the `receiving` run (growing
it). -/
def transferAmount (giving receiving : List EPane) (d : ℚ) : ℚ :=
  match totalGrow receiving with
  | none => min d (totalShrink giving)
  | some c => min (min d (totalShrink giving)) c

/-- Overwrite pane sizes positionally. -/
def setSizes : List EPane → List ℚ → List EPane
  | [], _ => []
  | ps, [] => ps
  | p :: ps, v :: vs => { p with currentSize := v } :: setSizes ps vs

/-- Insert a pane at position `n`. -/
def insertAt (n : ℕ) (p : EPane) (ps : List EPane) : List EPane :=
  ps.take n ++ p :: ps.drop n

/-- How much of `amount` a pane can take before hitting its maximum
(never negative). -/
def growTowardMax (p : EPane) (amount : ℚ) : ℚ :=
  match p.maximumSize with
  | none => max 0 amount
  | some m => min (max 0 amount) (max 0 (m - p.currentSize))

/-- Add `leftover` to the rightmost pane. -/
def addToLast (leftover : ℚ) : List EPane → List EPane
  | [] => []
  | [p] => [{ p with currentSize := p.currentSize + leftover }]
  | p :: q :: rest => p :: addToLast leftover (q :: rest)

/-- Modelled from the spec (`removeView`): each remaining pane is offered a
slice of the vacated size proportional to its current share, capped at its
maximum. -/
def proportionalGrow (ps : List EPane) (vacated : ℚ) : List EPane :=
  ps.map (fun p =>
    { p with currentSize :=
        p.currentSize + growTowardMax p (vacated * p.currentSize / sizesSum ps) })

/-- Modelled from the spec's `distributeViewSizes` ("resets every pane to
an equal share, still respecting bounds; panes that cannot take an equal
share absorb their bound value, and the remaining panes redistribute the
residual; iterate to fixpoint"): each entry pairs a pane with its
already-fixed bound value, if any; `fuel` bounds the iteration (each round
strictly grows the fixed set).  Returns the final sizes, or `none` when
the bounds cannot meet `total`. -/
def distFix : ℕ → List (Option ℚ × EPane) → ℚ → Option (List ℚ)
  | 0, _, _ => none
  | fuel + 1, entries, total =>
      let free := (entries.filter (fun e => e.1.isNone)).length
      if free = 0 then
        if (entries.map (fun e => e.1.getD 0)).sum = total then
          some (entries.map (fun e => e.1.getD 0))
        else none
      else
        let share := (total - (entries.map (fun e => e.1.getD 0)).sum) / free
        if entries.any (fun e => e.1.isNone && decide (clampPane e.2 share ≠ share)) then
          distFix fuel
            (entries.map (fun e =>
              if e.1.isNone && decide (clampPane e.2 share ≠ share) then
                (some (clampPane e.2 share), e.2)
              else e)) total
        else
          some (entries.map (fun e => e.1.getD share))

/-- Modelled from the spec: `distributeViewSizes()`. -/
def distributeViewSizes (s : EngineState) : Option EngineState :=
  match distFix (s.panes.length + 1) (s.panes.map (fun p => ((none : Option ℚ), p)))
      s.containerSize with
  | none => none
  | some sizes => some { s with panes := setSizes s.panes sizes }

/-- Modelled from the spec: `layout(newContainerSize)` redistributes the
delta across the panes, each clamped to its bounds with the residual
cascading onward (the priority / proportional orderings only permute which
pane absorbs first, which the size total cannot see, so the model cascades
in sequence order).  The call succeeds when the delta is fully absorbed. -/
def layout (s : EngineState) (newSize : ℚ) : Option EngineState :=
  let pr := cascade s.panes (newSize - s.containerSize)
  if pr.2 = 0 then some { panes := pr.1, containerSize := newSize } else none

/-- Modelled from the spec: `resizeView(index, size)` clamps the requested
size to the pane's bounds and pushes the opposite delta onto the
neighbours — the panes after `index` first, then the ones before, nearest
first; when they saturate, the resize is truncated to what they
absorbed. -/
def resizeView (s : EngineState) (index : ℕ) (size : ℚ) : Option EngineState :=
  match s.panes[index]? with
  | none => none
  | some p =>
      let target := clampPane p size
      let d := target - p.currentSize
      let after := cascade (s.panes.drop (index + 1)) (-d)
      let before := cascade ((s.panes.take index).reverse) after.2
      let absorbed := -d - before.2
      some { s with panes :=
        before.1.reverse ++ { p with currentSize := p.currentSize - absorbed } :: after.1 }

/-- Modelled from the spec: `resizeViews(sizes)` fails on a length mismatch
(`SizeMismatch`) or when the sizes do not sum to the container size
(`SizeSumMismatch`; the exact-arithmetic model needs no rounding
tolerance), and otherwise overwrites all sizes. -/
def resizeViews (s : EngineState) (sizes : List ℚ) : Option EngineState :=
  if sizes.length = s.panes.length then
    if sizes.sum = s.containerSize then
      some { s with panes := setSizes s.panes sizes }
    else none
  else none

/-- Modelled from the spec: the `sizingMode` of `addView`. -/
inductive Sizing where
  | Distribute
  | Split (neighborIndex : ℕ)
deriving DecidableEq, Repr

/-- Modelled from the spec: `addView(pane, sizingMode, index)` — an
insertion index outside `[0, length]` fails (`InvalidIndex`); `Distribute`
inserts the pane at size 0 and re-runs the even redistribution; `Split`
moves half of the neighbour's current size to the new pane, truncated to
what the neighbour can give and the new pane can take. -/
def addView (s : EngineState) (p : EPane) (sizing : Sizing) (index : ℕ) : Option EngineState :=
  if s.panes.length < index then none
  else
    match sizing with
    | .Distribute =>
        distributeViewSizes
          { s with panes := insertAt index { p with currentSize := 0 } s.panes }
    | .Split neighborIndex =>
        match s.panes[neighborIndex]? with
        | none => none
        | some nb =>
            let t := min (growTowardMax { p with currentSize := 0 } (nb.currentSize / 2))
                         (max 0 (nb.currentSize - nb.minimumSize))
            let shrunk := s.panes.take neighborIndex ++
              { nb with currentSize := nb.currentSize - t } ::
                s.panes.drop (neighborIndex + 1)
            some { s with panes := insertAt index { p with currentSize := t } shrunk }

/-- Modelled from the spec: `removeView(index)` drops the pane, offers its
vacated size to the remaining panes proportionally to their shares (capped
at their maxima), and the rightmost pane absorbs the remainder.  Removing
the last pane of a nonempty container cannot redistribute anywhere and
fails. -/
def removeView (s : EngineState) (index : ℕ) : Option EngineState :=
  match s.panes[index]? with
  | none => none
  | some p =>
      match s.panes.take index ++ s.panes.drop (index + 1) with
      | [] => if s.containerSize = 0 then some { s with panes := [] } else none
      | q :: qs =>
          let rest := q :: qs
          let grown := proportionalGrow rest p.currentSize
          let leftover := p.currentSize - (sizesSum grown - sizesSum rest)
          some { s with panes := addToLast leftover grown }

/-- Modelled from the spec: sash-level adjustment at boundary `index`
(between panes `index` and `index + 1`) with signed `delta`: space moves
across the boundary, each side cascading outward from the sash, the
transfer truncated to what both sides' bounds allow. -/
def sashAdjust (s : EngineState) (index : ℕ) (delta : ℚ) : Option EngineState :=
  if index + 1 < s.panes.length then
    let left := (s.panes.take (index + 1)).reverse
    let right := s.panes.drop (index + 1)
    if 0 ≤ delta then
      let t := transferAmount left right delta
      some { s with panes := (cascade left (-t)).1.reverse ++ (cascade right t).1 }
    else
      let t := transferAmount right left (-delta)
      some { s with panes := (cascade left t).1.reverse ++ (cascade right (-t)).1 }
  else none

/-- The public operations of the Split-View Engine named by the sum
invariant. -/
inductive EngineOp where
  | layoutOp (newSize : ℚ)
  | resizeViewOp (index : ℕ) (size : ℚ)
  | resizeViewsOp (sizes : List ℚ)
  | addViewOp (p : EPane) (sizing : Sizing) (index : ℕ)
  | removeViewOp (index : ℕ)
  | sashAdjustOp (index : ℕ) (delta : ℚ)
deriving DecidableEq, Repr

/-- One public engine operation; `none` is a failed call, which the spec
requires to leave the state untouched. -/
def step (s : EngineState) : EngineOp → Option EngineState
  | .layoutOp newSize => layout s newSize
  | .resizeViewOp index size => resizeView s index size
  | .resizeViewsOp sizes => resizeViews s sizes
  | .addViewOp p sizing index => addView s p sizing index
  | .removeViewOp index => removeView s index
  | .sashAdjustOp index delta => sashAdjust s index delta

/-- Seeding the engine: allotment.tsx constructs the descriptor with
`size = defaultSizes.reduce((a, b) => a + b, 0)`, so the container size is
the sum of the seeded view sizes (an empty engine starts at 0). -/
def initState (panes : List EPane) : EngineState :=
  { panes := panes, containerSize := sizesSum panes }

/-- Engine states reachable from a seeded engine through successful public
operations. -/
inductive Reachable : EngineState → Prop
  | init (panes : List EPane) : Reachable (initState panes)
  | next {s t : EngineState} (op : EngineOp) : Reachable s → step s op = some t → Reachable t

/-- A call to one of the two size setters of `PaneView`, with its
`number | undefined` argument. -/
inductive SizeOp where
  | setMin (v : Option JSNum)
  | setMax (v : Option JSNum)
deriving DecidableEq, Repr

/-- Running one size-setter call. -/
def applySizeOp (pv : PaneView) : SizeOp → PaneView
  | .setMin v => pv.setMinimumSize v
  | .setMax v => pv.setMaximumSize v

/-- Running a sequence of size-setter calls. -/
def applySizeOps (pv : PaneView) (ops : List SizeOp) : PaneView :=
  ops.foldl applySizeOp pv

/-- The size invariant claimed by the spec's data model:
`minimumSize ≥ 0` and `maximumSize ≥ minimumSize`, in JS order (so a NaN
bound falsifies it). -/
def sizeInv (pv : PaneView) : Bool :=
  jsLe (.num 0) pv.minimumSize && jsLe pv.minimumSize pv.maximumSize

/-- The discipline on a single setter call under which the size invariant
is preserved: a numeric new minimum is nonnegative and at most the
maximum in force, an omitted minimum (fallback 30) requires the maximum
in force to be at least 30, and a numeric new maximum is at least the
minimum in force. -/
def sizeOpOk (pv : PaneView) : SizeOp → Bool
  | .setMin (some n) => jsLe (.num 0) n && jsLe n pv.maximumSize
  | .setMin none => jsLe (.num 30) pv.maximumSize
  | .setMax (some n) => jsLe pv.minimumSize n
  | .setMax none => true

/-- The same discipline along a sequence of setter calls. -/
def sizeOpsOk : PaneView → List SizeOp → Bool
  | _, [] => true
  | pv, op :: rest => sizeOpOk pv op && sizeOpsOk (applySizeOp pv op) rest

/-- The discipline on constructor options: a supplied numeric minimum is
nonnegative, and a supplied numeric maximum is at least the minimum the
constructor just installed. -/
def constructSizeOk (options : PaneViewOptions) : Bool :=
  (match options.minimumSize with
   | some n => jsLe (.num 0) n
   | none => true) &&
  (match options.maximumSize with
   | some n => jsLe (PaneView.construct options).minimumSize n
   | none => true)

/-! Projection lemmas for the embedded getters and setters. -/

/-- The strategy a constructed `PaneView` carries is the one selected by the
constructor's inline preferred-size logic. -/
theorem construct_layoutStrategy (options : PaneViewOptions) :
    (PaneView.construct options).layoutStrategy = constructorStrategy options.preferredSize := rfl

/-- The strategy after an assignment to the `preferredSize` setter. -/
theorem setPreferredSize_layoutStrategy (pv : PaneView) (v : PreferredSizeValue) :
    (pv.setPreferredSize v).layoutStrategy = setterStrategy v := rfl

/-- Unfolding of `constructorStrategy` on a `%`-suffixed string. -/
theorem constructorStrategy_pct (s : String) (hpct : endsWith (jsTrim s) ("%") = true) :
    constructorStrategy (.str s) =
      .ProportionLayout (jsDiv100 (jsNumber (sliceDropRight (jsTrim s) 1))) := by
  simp [constructorStrategy, hpct]

/-- Unfolding of `constructorStrategy` on a `px`-suffixed string. -/
theorem constructorStrategy_px (s : String) (hpct : endsWith (jsTrim s) ("%") = false)
    (hpx : endsWith (jsTrim s) ("px") = true) :
    constructorStrategy (.str s) =
      .PixelLayout (jsDiv100 (jsNumber (sliceDropRight (jsTrim s) 2))) := by
  simp [constructorStrategy, hpct, hpx]

/-- Unfolding of `setterStrategy` on a `px`-suffixed string. -/
theorem setterStrategy_px (s : String) (hpct : endsWith (jsTrim s) ("%") = false)
    (hpx : endsWith (jsTrim s) ("px") = true) :
    setterStrategy (.str s) =
      .PixelLayout (jsDiv100 (jsNumber (sliceDropRight (jsTrim s) 2))) := by
  simp [setterStrategy, hpct, hpx]

/-- On a string with neither suffix, both strategy builders take the
always-true `typeof Number.parseFloat(...) === "number"` branch. -/
theorem strategies_no_suffix (s : String) (hpct : endsWith (jsTrim s) ("%") = false)
    (hpx : endsWith (jsTrim s) ("px") = false) :
    constructorStrategy (.str s) = .PixelLayout (jsParseFloat (jsTrim s)) ∧
    setterStrategy (.str s) = .PixelLayout (jsParseFloat (jsTrim s)) := by
  constructor
  · simp [constructorStrategy, hpct, hpx, jsTypeofNumber]
  · simp [setterStrategy, hpct, hpx, jsTypeofNumber]

/-- Evaluation of the leading number of the string `"120px"`. -/
theorem jsNumber_120 : jsNumber (sliceDropRight (jsTrim ("120px")) 2) = .num 120 := by
  have e : sliceDropRight (jsTrim ("120px")) 2 = ("120") := by decide
  have h : jsNumber ("120") = .num (decValue (['1', '2', '0']) []) := by rfl
  rw [e, h, decValue, (by decide : digitsVal (['1', '2', '0']) = 120),
    (by decide : digitsVal ([] : List Char) = 0)]
  norm_num

/-- Evaluation of the leading number of the string `"50%"`. -/
theorem jsNumber_50 : jsNumber (sliceDropRight (jsTrim ("50%")) 1) = .num 50 := by
  have e : sliceDropRight (jsTrim ("50%")) 1 = ("50") := by decide
  have h : jsNumber ("50") = .num (decValue (['5', '0']) []) := by rfl
  rw [e, h, decValue, (by decide : digitsVal (['5', '0']) = 50),
    (by decide : digitsVal ([] : List Char) = 0)]
  norm_num

/-- Evaluation of `Number.parseFloat` on the trimmed string `"  3.5 "`. -/
theorem jsParseFloat_3_5 : jsParseFloat (jsTrim ("  3.5 ")) = .num (7 / 2) := by
  have e : jsTrim ("  3.5 ") = ("3.5") := by decide
  have h : jsParseFloat ("3.5") = .num (decValue (['3']) (['5'])) := by rfl
  rw [e, h, decValue, (by decide : digitsVal (['3']) = 3),
    (by decide : digitsVal (['5']) = 5)]
  norm_num

/-- C1: the claim states that a `"px"`-suffixed declaration such as
`"120px"` builds a Fixed strategy returning the leading number itself
(120).  The code instead divides the parsed number by 100 — copying the
`%` branch — so `"120px"` yields a Fixed strategy of 1.2 = 6/5, through
both the constructor and the setter, contradicting the component's own
JSDoc remark that a `"px"` string is interpreted as that number of
pixels. -/
theorem C1_px_strategy_divides_by_100 :
    constructorStrategy (.str ("120px")) = .PixelLayout (.num (6 / 5)) ∧
    setterStrategy (.str ("120px")) = .PixelLayout (.num (6 / 5)) ∧
    (PaneView.construct { minimumSize := none, maximumSize := none, priority := none,
                          preferredSize := .str ("120px"), snap := none }).preferredSize 300 =
      some (.num (6 / 5)) ∧
    (6 : ℚ) / 5 ≠ 120 := by
  have hc : constructorStrategy (.str ("120px")) = .PixelLayout (.num (6 / 5)) := by
    rw [constructorStrategy_px ("120px") (by decide) (by decide), jsNumber_120]
    show Layout.PixelLayout (.num (120 / 100)) = Layout.PixelLayout (.num (6 / 5))
    norm_num
  have hs : setterStrategy (.str ("120px")) = .PixelLayout (.num (6 / 5)) := by
    rw [setterStrategy_px ("120px") (by decide) (by decide), jsNumber_120]
    show Layout.PixelLayout (.num (120 / 100)) = Layout.PixelLayout (.num (6 / 5))
    norm_num
  refine ⟨hc, hs, ?_, by norm_num⟩
  rw [PaneView.preferredSize, construct_layoutStrategy]
  rw [hc]
  rfl

/-- C2: the claim states that strings that are neither `%`- nor
`px`-suffixed numerics nor bare numerics degrade to the Unset strategy
(getter `undefined`).  Parsing is indeed total in the model, but because
`typeof Number.parseFloat(x) === "number"` is true for every string (NaN
has typeof `"number"`), the `NullLayout` fallback for strings is dead
code: a malformed string such as `"abc"` installs `PixelLayout(NaN)` and
the getter returns NaN, not `undefined`. -/
theorem C2_malformed_string_not_unset :
    setterStrategy (.str ("abc")) = .PixelLayout .nan ∧
    constructorStrategy (.str ("abc")) = .PixelLayout .nan ∧
    (PaneView.construct { minimumSize := none, maximumSize := none, priority := none,
                          preferredSize := .str ("abc"), snap := none }).preferredSize 100 =
      some .nan ∧
    some JSNum.nan ≠ (none : Option JSNum) := by
  refine ⟨by decide, by decide, ?_, by decide⟩
  rw [PaneView.preferredSize, construct_layoutStrategy]
  decide

/-- C3: a declaration `"N%"` with numeric leading part `N` builds a
Proportional strategy of fraction `N/100`, and its `getPreferredSize`
returns `N/100` times the layout service's current size at the time of
the call. -/
theorem C3_percent_builds_proportional (s : String) (q : ℚ)
    (hpct : endsWith (jsTrim s) ("%") = true)
    (hnum : jsNumber (sliceDropRight (jsTrim s) 1) = .num q) :
    constructorStrategy (.str s) = .ProportionLayout (.num (q / 100)) ∧
    ∀ layoutSize : ℚ,
      (constructorStrategy (.str s)).getPreferredSize layoutSize =
        some (.num (q / 100 * layoutSize)) := by
  have h := constructorStrategy_pct s hpct
  rw [hnum] at h
  have h100 : jsDiv100 (.num q) = .num (q / 100) := rfl
  rw [h100] at h
  exact ⟨h, fun layoutSize => by rw [h]; rfl⟩

/-- Witness for C3 at the declaration `"50%"` and layout size 200. -/
theorem C3_percent_builds_proportional_witness :
    endsWith (jsTrim ("50%")) ("%") = true ∧
    jsNumber (sliceDropRight (jsTrim ("50%")) 1) = .num 50 ∧
    constructorStrategy (.str ("50%")) = .ProportionLayout (.num (50 / 100)) ∧
    (constructorStrategy (.str ("50%"))).getPreferredSize 200 =
      some (.num (50 / 100 * 200)) := by
  have hmain := C3_percent_builds_proportional ("50%") 50 (by decide) jsNumber_50
  exact ⟨by decide, jsNumber_50, hmain.1, hmain.2 200⟩

/-- C5: `setSashSize(n)` sets the sash (interaction) thickness to `n`
clamped to `[4, 20]`, the hover affordance thickness to `n` clamped to
`[1, 8]`, and propagates the clamped interaction thickness as the global
sash size. -/
theorem C5_setSashSize_clamps (n : ℚ) :
    (4 ≤ (setSashSize n).sashSize ∧ (setSashSize n).sashSize ≤ 20) ∧
    (1 ≤ (setSashSize n).hoverSize ∧ (setSashSize n).hoverSize ≤ 8) ∧
    (setSashSize n).globalSashSize = (setSashSize n).sashSize ∧
    (4 ≤ n → n ≤ 20 → (setSashSize n).sashSize = n) ∧
    (n < 4 → (setSashSize n).sashSize = 4) ∧
    (20 < n → (setSashSize n).sashSize = 20) ∧
    (1 ≤ n → n ≤ 8 → (setSashSize n).hoverSize = n) ∧
    (n < 1 → (setSashSize n).hoverSize = 1) ∧
    (8 < n → (setSashSize n).hoverSize = 8) := by
  have hs : (setSashSize n).sashSize = clamp n 4 20 := rfl
  have hh : (setSashSize n).hoverSize = clamp n 1 8 := rfl
  have hg : (setSashSize n).globalSashSize = (setSashSize n).sashSize := rfl
  rw [hs, hh, hg, clamp, clamp]
  refine ⟨⟨le_max_left _ _, max_le (by norm_num) (min_le_right _ _)⟩,
    ⟨le_max_left _ _, max_le (by norm_num) (min_le_right _ _)⟩, hs.symm ▸ rfl,
    ?_, ?_, ?_, ?_, ?_, ?_⟩
  · intro h1 h2; rw [min_eq_left h2, max_eq_right h1]
  · intro h
    rw [min_eq_left (le_trans h.le (by norm_num)), max_eq_left h.le]
  · intro h
    rw [min_eq_right h.le]
    norm_num
  · intro h1 h2; rw [min_eq_left h2, max_eq_right h1]
  · intro h
    rw [min_eq_left (le_trans h.le (by norm_num)), max_eq_left h.le]
  · intro h
    rw [min_eq_right h.le]
    norm_num

/-- Witness for C5 at `n = 10`: the interaction thickness stays 10, the
hover thickness clamps to 8. -/
theorem C5_setSashSize_clamps_witness :
    (setSashSize 10).sashSize = 10 ∧ (setSashSize 10).hoverSize = 8 ∧
    (setSashSize 10).globalSashSize = (setSashSize 10).sashSize := by
  obtain ⟨-, -, hg, hs, -, -, -, -, hh⟩ := C5_setSashSize_clamps 10
  exact ⟨hs (by norm_num) (by norm_num), hh (by norm_num), hg⟩

/-- C6: a Fixed (`PixelLayout`) strategy returns its stored constant for
every layout-context size, and an Unset (`NullLayout`) strategy returns
`undefined` on every call. -/
theorem C6_fixed_constant_unset_undefined (size : JSNum) (s1 s2 : ℚ) :
    Layout.getPreferredSize (.PixelLayout size) s1 = some size ∧
    Layout.getPreferredSize (.PixelLayout size) s1 =
      Layout.getPreferredSize (.PixelLayout size) s2 ∧
    Layout.getPreferredSize .NullLayout s1 = none ∧
    Layout.getPreferredSize .NullLayout s1 = Layout.getPreferredSize .NullLayout s2 :=
  ⟨rfl, rfl, rfl, rfl⟩

/-- C7: a trimmed declaration with neither `%` nor `px` suffix on which
`Number.parseFloat` yields a (finite) number builds a Fixed strategy of
the parsed value, which `getPreferredSize` then returns; bare numeric
strings such as `"42"` or `"  3.5 "` are exactly of this shape. -/
theorem C7_bare_numeric_fixed (s : String) (q : ℚ)
    (hpct : endsWith (jsTrim s) ("%") = false)
    (hpx : endsWith (jsTrim s) ("px") = false)
    (hpf : jsParseFloat (jsTrim s) = .num q) :
    constructorStrategy (.str s) = .PixelLayout (.num q) ∧
    setterStrategy (.str s) = .PixelLayout (.num q) ∧
    ∀ layoutSize : ℚ,
      (constructorStrategy (.str s)).getPreferredSize layoutSize = some (.num q) := by
  obtain ⟨h1, h2⟩ := strategies_no_suffix s hpct hpx
  rw [hpf] at h1 h2
  exact ⟨h1, h2, fun layoutSize => by rw [h1]; rfl⟩

/-- Witness for C7 at the declaration `"  3.5 "`. -/
theorem C7_bare_numeric_fixed_witness :
    endsWith (jsTrim ("  3.5 ")) ("%") = false ∧
    endsWith (jsTrim ("  3.5 ")) ("px") = false ∧
    jsParseFloat (jsTrim ("  3.5 ")) = .num (7 / 2) ∧
    constructorStrategy (.str ("  3.5 ")) = .PixelLayout (.num (7 / 2)) ∧
    (constructorStrategy (.str ("  3.5 "))).getPreferredSize 100 = some (.num (7 / 2)) := by
  have hmain :=
    C7_bare_numeric_fixed ("  3.5 ") (7 / 2) (by decide) (by decide) jsParseFloat_3_5
  exact ⟨by decide, by decide, jsParseFloat_3_5, hmain.1, hmain.2.2 100⟩

/-- The minimum a constructed `PaneView` carries: the supplied number, or
the 30 fallback. -/
theorem construct_minimumSize (options : PaneViewOptions) :
    (PaneView.construct options).minimumSize = options.minimumSize.getD (.num 30) := by
  obtain ⟨mn, mx, pr, ps, sn⟩ := options
  cases mn <;> rfl

/-- The maximum a constructed `PaneView` carries: the supplied number, or
the +∞ fallback. -/
theorem construct_maximumSize (options : PaneViewOptions) :
    (PaneView.construct options).maximumSize = options.maximumSize.getD .posInf := by
  obtain ⟨mn, mx, pr, ps, sn⟩ := options
  cases mx <;> rfl

/-- Any value known to be JS-`≥ 0` is JS-`≤ +∞` (in particular it is not
NaN). -/
theorem jsLe_posInf_of_zero_le (x : JSNum) (h : jsLe (.num 0) x = true) :
    jsLe x .posInf = true := by
  cases x <;> simp_all [jsLe]

/-- One disciplined setter call preserves the size invariant. -/
theorem sizeInv_step (pv : PaneView) (op : SizeOp) (hinv : sizeInv pv = true)
    (hok : sizeOpOk pv op = true) : sizeInv (applySizeOp pv op) = true := by
  simp only [sizeInv, Bool.and_eq_true, PaneView.minimumSize, PaneView.maximumSize] at hinv
  cases op with
  | setMin v =>
    cases v with
    | some n =>
        simp only [sizeOpOk, Bool.and_eq_true, PaneView.maximumSize] at hok
        simp only [applySizeOp, sizeInv, Bool.and_eq_true, PaneView.setMinimumSize,
          PaneView.minimumSize, PaneView.maximumSize]
        exact ⟨hok.1, hok.2⟩
    | none =>
        simp only [sizeOpOk, PaneView.maximumSize] at hok
        simp only [applySizeOp, sizeInv, Bool.and_eq_true, PaneView.setMinimumSize,
          PaneView.minimumSize, PaneView.maximumSize]
        exact ⟨by decide, hok⟩
  | setMax v =>
    cases v with
    | some n =>
        simp only [sizeOpOk, PaneView.minimumSize] at hok
        simp only [applySizeOp, sizeInv, Bool.and_eq_true, PaneView.setMaximumSize,
          PaneView.minimumSize, PaneView.maximumSize]
        exact ⟨hinv.1, hok⟩
    | none =>
        simp only [applySizeOp, sizeInv, Bool.and_eq_true, PaneView.setMaximumSize,
          PaneView.minimumSize, PaneView.maximumSize]
        exact ⟨hinv.1, jsLe_posInf_of_zero_le _ hinv.1⟩

/-- Disciplined constructor options yield a `PaneView` satisfying the size
invariant. -/
theorem sizeInv_construct (options : PaneViewOptions)
    (h : constructSizeOk options = true) : sizeInv (PaneView.construct options) = true := by
  obtain ⟨mn, mx, pr, ps, sn⟩ := options
  rw [constructSizeOk, Bool.and_eq_true] at h
  obtain ⟨h1, h2⟩ := h
  rw [sizeInv, Bool.and_eq_true, construct_minimumSize, construct_maximumSize]
  rw [construct_minimumSize] at h2
  cases mn <;> cases mx
  · exact ⟨(by decide : jsLe (.num 0) (.num 30) = true),
      (by decide : jsLe (.num 30) .posInf = true)⟩
  · exact ⟨(by decide : jsLe (.num 0) (.num 30) = true), h2⟩
  · exact ⟨h1, jsLe_posInf_of_zero_le _ h1⟩
  · exact ⟨h1, h2⟩

/-- A disciplined sequence of setter calls preserves the size invariant. -/
theorem sizeInv_ops (ops : List SizeOp) (pv : PaneView) (hinv : sizeInv pv = true)
    (hops : sizeOpsOk pv ops = true) : sizeInv (applySizeOps pv ops) = true := by
  induction ops generalizing pv with
  | nil => exact hinv
  | cons op rest ih =>
      rw [sizeOpsOk, Bool.and_eq_true] at hops
      exact ih (applySizeOp pv op) (sizeInv_step pv op hinv hops.1) hops.2

/-- C8 fails as stated: the setters store values unvalidated, so
constructing with `minimumSize = -5` yields a negative minimum, and
constructing with `minimumSize = 50, maximumSize = 10` yields a maximum
below the minimum. -/
theorem C8_bounds_invariant_counterexample :
    jsLe (.num 0)
      ((PaneView.construct { minimumSize := some (.num (-5)), maximumSize := none,
                             priority := none, preferredSize := .undef,
                             snap := none }).minimumSize) = false ∧
    jsLe
      ((PaneView.construct { minimumSize := some (.num 50), maximumSize := some (.num 10),
                             priority := none, preferredSize := .undef,
                             snap := none }).minimumSize)
      ((PaneView.construct { minimumSize := some (.num 50), maximumSize := some (.num 10),
                             priority := none, preferredSize := .undef,
                             snap := none }).maximumSize) = false := by
  exact ⟨by decide, by decide⟩

/-- C8 (amended): after construction and any sequence of size-setter
calls, `minimumSize ≥ 0` and `maximumSize ≥ minimumSize` hold provided
every supplied numeric minimum is nonnegative and at most the maximum in
force, an omitted minimum is only assigned while the maximum in force is
at least the 30 fallback, and every supplied numeric maximum is at least
the minimum in force (the setters themselves do not validate). -/
theorem C8_bounds_invariant_amended (options : PaneViewOptions) (ops : List SizeOp)
    (hco : constructSizeOk options = true)
    (hops : sizeOpsOk (PaneView.construct options) ops = true) :
    jsLe (.num 0) (applySizeOps (PaneView.construct options) ops).minimumSize = true ∧
    jsLe (applySizeOps (PaneView.construct options) ops).minimumSize
      (applySizeOps (PaneView.construct options) ops).maximumSize = true := by
  have h := sizeInv_ops ops (PaneView.construct options) (sizeInv_construct options hco) hops
  rw [sizeInv, Bool.and_eq_true] at h
  exact h

/-- Witness for the amended C8: construction with bounds 5 and 100
followed by resetting both bounds to their fallbacks. -/
theorem C8_bounds_invariant_amended_witness :
    constructSizeOk { minimumSize := some (.num 5), maximumSize := some (.num 100),
                      priority := none, preferredSize := .undef, snap := none } = true ∧
    sizeOpsOk
      (PaneView.construct { minimumSize := some (.num 5), maximumSize := some (.num 100),
                            priority := none, preferredSize := .undef, snap := none })
      ([SizeOp.setMin none, SizeOp.setMax none]) = true ∧
    jsLe (.num 0)
      (applySizeOps
        (PaneView.construct { minimumSize := some (.num 5), maximumSize := some (.num 100),
                              priority := none, preferredSize := .undef, snap := none })
        ([SizeOp.setMin none, SizeOp.setMax none])).minimumSize = true ∧
    jsLe
      (applySizeOps
        (PaneView.construct { minimumSize := some (.num 5), maximumSize := some (.num 100),
                              priority := none, preferredSize := .undef, snap := none })
        ([SizeOp.setMin none, SizeOp.setMax none])).minimumSize
      (applySizeOps
        (PaneView.construct { minimumSize := some (.num 5), maximumSize := some (.num 100),
                              priority := none, preferredSize := .undef, snap := none })
        ([SizeOp.setMin none, SizeOp.setMax none])).maximumSize = true := by
  have h := C8_bounds_invariant_amended
    { minimumSize := some (.num 5), maximumSize := some (.num 100),
      priority := none, preferredSize := .undef, snap := none }
    ([SizeOp.setMin none, SizeOp.setMax none]) (by decide) (by decide)
  exact ⟨by decide, by decide, h.1, h.2⟩

/-- C9: the strategy the constructor installs for a preferred-size value
and the strategy a later assignment of the same value installs are the
same, so the `preferredSize` getter agrees between the two for every
layout-context size. -/
theorem C9_constructor_setter_agree (options : PaneViewOptions) (pv : PaneView)
    (layoutSize : ℚ) :
    constructorStrategy options.preferredSize = setterStrategy options.preferredSize ∧
    (PaneView.construct options).preferredSize layoutSize =
      (pv.setPreferredSize options.preferredSize).preferredSize layoutSize := by
  have h : constructorStrategy options.preferredSize = setterStrategy options.preferredSize := by
    cases options.preferredSize <;> rfl
  refine ⟨h, ?_⟩
  rw [PaneView.preferredSize, PaneView.preferredSize, construct_layoutStrategy,
    setPreferredSize_layoutStrategy, h]

/-- C10: omitted (undefined) options fall back to minimum 30, maximum +∞,
snap `false` and priority `Normal`, both at construction and when the
setters are later passed `undefined`. -/
theorem C10_option_defaults (ps : PreferredSizeValue) (pv : PaneView) :
    (PaneView.construct { minimumSize := none, maximumSize := none, priority := none,
                          preferredSize := ps, snap := none }).minimumSize = .num 30 ∧
    (PaneView.construct { minimumSize := none, maximumSize := none, priority := none,
                          preferredSize := ps, snap := none }).maximumSize = .posInf ∧
    (PaneView.construct { minimumSize := none, maximumSize := none, priority := none,
                          preferredSize := ps, snap := none }).snap = false ∧
    (PaneView.construct { minimumSize := none, maximumSize := none, priority := none,
                          preferredSize := ps, snap := none }).priority = some .Normal ∧
    (pv.setMinimumSize none).minimumSize = .num 30 ∧
    (pv.setMaximumSize none).maximumSize = .posInf ∧
    (pv.setSnap none).snap = false ∧
    (pv.setPriority none).priority = some .Normal :=
  ⟨rfl, rfl, rfl, rfl, rfl, rfl, rfl, rfl⟩

/-! Size-total bookkeeping for the engine model. -/

/-- The size total of an empty run. -/
theorem sizesSum_nil : sizesSum [] = 0 := rfl

/-- The size total of a cons. -/
theorem sizesSum_cons (p : EPane) (ps : List EPane) :
    sizesSum (p :: ps) = p.currentSize + sizesSum ps := by
  simp [sizesSum]

/-- The size total of a concatenation. -/
theorem sizesSum_append (a b : List EPane) :
    sizesSum (a ++ b) = sizesSum a + sizesSum b := by
  simp [sizesSum]

/-- Reversal does not change the size total. -/
theorem sizesSum_reverse (a : List EPane) : sizesSum a.reverse = sizesSum a := by
  simp [sizesSum, List.sum_reverse]

/-- Cascading accounts exactly: the new total is the old total plus the
absorbed part of the delta. -/
theorem cascade_sum (ps : List EPane) :
    ∀ d : ℚ, sizesSum (cascade ps d).1 = sizesSum ps + d - (cascade ps d).2 := by
  induction ps with
  | nil => intro d; simp [cascade, sizesSum]
  | cons p rest ih =>
      intro d
      have hc : cascade (p :: rest) d =
          ({ p with currentSize := p.currentSize + paneAbsorb p d } ::
              (cascade rest (d - paneAbsorb p d)).1,
            (cascade rest (d - paneAbsorb p d)).2) := rfl
      rw [hc]
      simp only [sizesSum_cons]
      rw [ih (d - paneAbsorb p d)]
      ring

/-- A pane absorbs nothing of a zero delta. -/
theorem paneAbsorb_zero (p : EPane) : paneAbsorb p 0 = 0 := by
  rw [paneAbsorb, if_pos le_rfl]
  cases hm : p.maximumSize with
  | none => rfl
  | some m => exact min_eq_left (le_max_left 0 _)

/-- Cascading a zero delta leaves no remainder. -/
theorem cascade_zero (ps : List EPane) : (cascade ps 0).2 = 0 := by
  induction ps with
  | nil => rfl
  | cons p rest ih =>
      have hc : (cascade (p :: rest) 0).2 = (cascade rest (0 - paneAbsorb p 0)).2 := rfl
      rw [hc, paneAbsorb_zero, sub_zero]
      exact ih

/-- Shrink capacity is never negative. -/
theorem totalShrink_nonneg (ps : List EPane) : 0 ≤ totalShrink ps := by
  induction ps with
  | nil => exact le_refl 0
  | cons p rest ih =>
      have h : totalShrink (p :: rest) =
          max 0 (p.currentSize - p.minimumSize) + totalShrink rest := by
        simp [totalShrink]
      rw [h]
      exact add_nonneg (le_max_left 0 _) ih

/-- Bounded grow capacity is never negative. -/
theorem totalGrow_nonneg (ps : List EPane) :
    ∀ c : ℚ, totalGrow ps = some c → 0 ≤ c := by
  induction ps with
  | nil =>
      intro c hc
      rw [totalGrow] at hc
      cases hc
      exact le_refl 0
  | cons p rest ih =>
      intro c hc
      rw [totalGrow] at hc
      cases hm : p.maximumSize with
      | none =>
          rw [hm] at hc
          cases hg : totalGrow rest <;> rw [hg] at hc <;> exact Option.noConfusion hc
      | some m =>
          cases hg : totalGrow rest with
          | none => rw [hm, hg] at hc; exact Option.noConfusion hc
          | some a =>
              rw [hm, hg] at hc
              injection hc with h
              rw [← h]
              exact add_nonneg (le_max_left 0 _) (ih a hg)

/-- A nonpositive delta within the run's shrink capacity is fully
absorbed. -/
theorem cascade_shrink_exact (ps : List EPane) :
    ∀ d : ℚ, d ≤ 0 → -d ≤ totalShrink ps → (cascade ps d).2 = 0 := by
  induction ps with
  | nil =>
      intro d hd hcap
      have h0 : totalShrink ([] : List EPane) = 0 := rfl
      rw [h0] at hcap
      have : d = 0 := le_antisymm hd (neg_nonpos.mp hcap)
      rw [this]
      rfl
  | cons p rest ih =>
      intro d hd hcap
      rcases eq_or_lt_of_le hd with h0 | hneg
      · rw [h0]; exact cascade_zero _
      · have hcons : totalShrink (p :: rest) =
            max 0 (p.currentSize - p.minimumSize) + totalShrink rest := by
          simp [totalShrink]
        rw [hcons] at hcap
        have habs : paneAbsorb p d =
            -(min (-d) (max 0 (p.currentSize - p.minimumSize))) := by
          rw [paneAbsorb, if_neg (not_le.mpr hneg)]
        have hc : (cascade (p :: rest) d).2 = (cascade rest (d - paneAbsorb p d)).2 := rfl
        rw [hc, habs]
        rcases le_total (-d) (max 0 (p.currentSize - p.minimumSize)) with hle | hgt
        · rw [min_eq_left hle]
          have : d - -(-d) = 0 := by ring
          rw [this]
          exact cascade_zero _
        · rw [min_eq_right hgt]
          apply ih
          · have := hgt
            nlinarith [le_max_left (0 : ℚ) (p.currentSize - p.minimumSize)]
          · have h1 : -(d - -(max 0 (p.currentSize - p.minimumSize))) =
                -d - max 0 (p.currentSize - p.minimumSize) := by ring
            rw [h1]
            linarith

/-- A nonnegative delta within the run's grow capacity is fully
absorbed. -/
theorem cascade_grow_exact (ps : List EPane) :
    ∀ d : ℚ, 0 ≤ d → (∀ c : ℚ, totalGrow ps = some c → d ≤ c) →
      (cascade ps d).2 = 0 := by
  induction ps with
  | nil =>
      intro d hd hcap
      have : d ≤ 0 := hcap 0 rfl
      have h0 : d = 0 := le_antisymm this hd
      rw [h0]
      rfl
  | cons p rest ih =>
      intro d hd hcap
      have hc : (cascade (p :: rest) d).2 = (cascade rest (d - paneAbsorb p d)).2 := rfl
      rw [hc]
      cases hm : p.maximumSize with
      | none =>
          have habs : paneAbsorb p d = d := by
            rw [paneAbsorb, if_pos hd, hm]
          rw [habs, sub_self]
          exact cascade_zero _
      | some m =>
          have habs : paneAbsorb p d = min d (max 0 (m - p.currentSize)) := by
            rw [paneAbsorb, if_pos hd, hm]
          rw [habs]
          rcases le_total d (max 0 (m - p.currentSize)) with hle | hgt
          · rw [min_eq_left hle, sub_self]
            exact cascade_zero _
          · rw [min_eq_right hgt]
            apply ih
            · linarith
            · intro c hcrest
              have hcall : totalGrow (p :: rest) =
                  some (max 0 (m - p.currentSize) + c) := by
                rw [totalGrow, hm, hcrest]
              have := hcap (max 0 (m - p.currentSize) + c) hcall
              linarith

/-- The transfer amount is nonnegative for a nonnegative request. -/
theorem transferAmount_nonneg (giving receiving : List EPane) (d : ℚ) (hd : 0 ≤ d) :
    0 ≤ transferAmount giving receiving d := by
  rw [transferAmount]
  cases hg : totalGrow receiving with
  | none => exact le_min hd (totalShrink_nonneg giving)
  | some c => exact le_min (le_min hd (totalShrink_nonneg giving)) (totalGrow_nonneg _ c hg)

/-- The transfer amount never exceeds the giving side's shrink capacity. -/
theorem transferAmount_le_shrink (giving receiving : List EPane) (d : ℚ) :
    transferAmount giving receiving d ≤ totalShrink giving := by
  rw [transferAmount]
  cases totalGrow receiving with
  | none => exact min_le_right _ _
  | some c => exact le_trans (min_le_left _ _) (min_le_right _ _)

/-- The transfer amount never exceeds the receiving side's grow capacity. -/
theorem transferAmount_le_grow (giving receiving : List EPane) (d : ℚ) (c : ℚ)
    (hg : totalGrow receiving = some c) : transferAmount giving receiving d ≤ c := by
  rw [transferAmount, hg]
  exact min_le_right _ _

/-- The giving side of a truncated transfer absorbs all of it. -/
theorem cascade_giving_exact (giving receiving : List EPane) (d : ℚ) (hd : 0 ≤ d) :
    (cascade giving (-(transferAmount giving receiving d))).2 = 0 := by
  apply cascade_shrink_exact
  · exact neg_nonpos.mpr (transferAmount_nonneg giving receiving d hd)
  · rw [neg_neg]
    exact transferAmount_le_shrink giving receiving d

/-- The receiving side of a truncated transfer absorbs all of it. -/
theorem cascade_receiving_exact (giving receiving : List EPane) (d : ℚ) (hd : 0 ≤ d) :
    (cascade receiving (transferAmount giving receiving d)).2 = 0 := by
  apply cascade_grow_exact
  · exact transferAmount_nonneg giving receiving d hd
  · intro c hg
    exact transferAmount_le_grow giving receiving d c hg

/-- Overwriting sizes positionally realizes exactly the given total. -/
theorem setSizes_sum (ps : List EPane) :
    ∀ sizes : List ℚ, sizes.length = ps.length →
      sizesSum (setSizes ps sizes) = sizes.sum := by
  induction ps with
  | nil =>
      intro sizes hlen
      rw [List.length_nil, List.length_eq_zero] at hlen
      rw [hlen]
      rfl
  | cons p rest ih =>
      intro sizes hlen
      cases sizes with
      | nil => cases hlen
      | cons v vs =>
          have hc : setSizes (p :: rest) (v :: vs) =
              { p with currentSize := v } :: setSizes rest vs := rfl
          rw [hc, sizesSum_cons, List.sum_cons]
          have hvs : vs.length = rest.length := by
            rw [List.length_cons, List.length_cons] at hlen
            exact Nat.succ_injective hlen
          rw [ih vs hvs]

/-- A list with a member at `n` splits as take, member, drop. -/
theorem list_decomp {α : Type} (l : List α) :
    ∀ (n : ℕ) (p : α), l[n]? = some p → l = l.take n ++ p :: l.drop (n + 1) := by
  induction l with
  | nil => intro n p h; cases h
  | cons a rest ih =>
      intro n p h
      cases n with
      | zero =>
          rw [List.getElem?_cons_zero] at h
          injection h with h
          rw [h]
          rfl
      | succ n =>
          rw [List.getElem?_cons_succ] at h
          have := ih n p h
          calc a :: rest = a :: (rest.take n ++ p :: rest.drop (n + 1)) := by rw [← this]
            _ = (a :: rest).take (n + 1) ++ p :: (a :: rest).drop (n + 2) := rfl

/-- Adding the leftover to the rightmost pane adds it to the total. -/
theorem addToLast_sum (v : ℚ) (ps : List EPane) (h : ps ≠ []) :
    sizesSum (addToLast v ps) = sizesSum ps + v := by
  induction ps with
  | nil => exact absurd rfl h
  | cons p rest ih =>
      cases rest with
      | nil =>
          have hc : addToLast v [p] = [{ p with currentSize := p.currentSize + v }] := rfl
          rw [hc, sizesSum_cons, sizesSum_cons]
          show p.currentSize + v + 0 = p.currentSize + 0 + v
          ring
      | cons q rest2 =>
          have hc : addToLast v (p :: q :: rest2) = p :: addToLast v (q :: rest2) := rfl
          rw [hc, sizesSum_cons, sizesSum_cons, ih (List.cons_ne_nil q rest2)]
          rw [sizesSum_cons]
          ring

/-- Inserting a pane adds its size to the total. -/
theorem insertAt_sum (n : ℕ) (p : EPane) (ps : List EPane) :
    sizesSum (insertAt n p ps) = p.currentSize + sizesSum ps := by
  rw [insertAt, sizesSum_append, sizesSum_cons]
  have h : sizesSum ps = sizesSum (ps.take n) + sizesSum (ps.drop n) := by
    rw [← sizesSum_append, List.take_append_drop]
  rw [h]
  ring

/-- The mixed fixed-or-share total of a `distFix` entry list. -/
theorem distFix_mixed_sum (entries : List (Option ℚ × EPane)) (share : ℚ) :
    (entries.map (fun e => e.1.getD share)).sum =
      (entries.map (fun e => e.1.getD 0)).sum +
        ((entries.filter (fun e => e.1.isNone)).length : ℚ) * share := by
  induction entries with
  | nil => simp
  | cons e rest ih =>
      rcases e with ⟨o, p⟩
      cases o with
      | none =>
          simp only [List.map_cons, List.sum_cons, Option.getD_none]
          rw [ih, List.filter_cons_of_pos (by simp), List.length_cons]
          push_cast
          ring
      | some v =>
          simp only [List.map_cons, List.sum_cons, Option.getD_some]
          rw [ih, List.filter_cons_of_neg (by simp)]
          ring

/-- A successful `distFix` returns one size per entry. -/
theorem distFix_length (fuel : ℕ) :
    ∀ (entries : List (Option ℚ × EPane)) (total : ℚ) (sizes : List ℚ),
      distFix fuel entries total = some sizes → sizes.length = entries.length := by
  induction fuel with
  | zero => intro entries total sizes h; exact Option.noConfusion h
  | succ fuel ih =>
      intro entries total sizes h
      simp only [distFix] at h
      split at h
      · split at h
        · injection h with h
          rw [← h, List.length_map]
        · exact Option.noConfusion h
      · split at h
        · have := ih _ _ _ h
          rw [this, List.length_map]
        · injection h with h
          rw [← h, List.length_map]

/-- A successful `distFix` realizes exactly the requested total. -/
theorem distFix_sum (fuel : ℕ) :
    ∀ (entries : List (Option ℚ × EPane)) (total : ℚ) (sizes : List ℚ),
      distFix fuel entries total = some sizes → sizes.sum = total := by
  induction fuel with
  | zero => intro entries total sizes h; exact Option.noConfusion h
  | succ fuel ih =>
      intro entries total sizes h
      simp only [distFix] at h
      split at h
      · rename_i hfree
        split at h
        · rename_i hsum
          injection h with h
          rw [← h, hsum]
        · exact Option.noConfusion h
      · rename_i hfree
        split at h
        · exact ih _ _ _ h
        · injection h with h
          rw [← h, distFix_mixed_sum]
          have hne : ((entries.filter (fun e => e.1.isNone)).length : ℚ) ≠ 0 := by
            exact_mod_cast hfree
          field_simp

/-- A successful `layout` leaves the sizes summing to the new container
size. -/
theorem layout_sum {s t : EngineState} (newSize : ℚ)
    (hs : sizesSum s.panes = s.containerSize)
    (h : layout s newSize = some t) : sizesSum t.panes = t.containerSize := by
  simp only [layout] at h
  split at h
  · rename_i hzero
    injection h with h
    subst h
    dsimp only
    rw [cascade_sum, hzero, hs]
    ring
  · exact Option.noConfusion h

/-- A successful `resizeView` preserves the size total. -/
theorem resizeView_sum {s t : EngineState} (index : ℕ) (size : ℚ)
    (hs : sizesSum s.panes = s.containerSize)
    (h : resizeView s index size = some t) : sizesSum t.panes = t.containerSize := by
  simp only [resizeView] at h
  cases hidx : s.panes[index]? with
  | none => rw [hidx] at h; exact Option.noConfusion h
  | some p =>
      rw [hidx] at h
      injection h with h
      subst h
      dsimp only
      have hdec : sizesSum s.panes =
          sizesSum (s.panes.take index) + p.currentSize +
            sizesSum (s.panes.drop (index + 1)) := by
        conv_lhs => rw [list_decomp s.panes index p hidx]
        rw [sizesSum_append, sizesSum_cons]
        ring
      simp only [sizesSum_append, sizesSum_reverse, sizesSum_cons, cascade_sum]
      linarith

/-- A successful `resizeViews` realizes the container size exactly. -/
theorem resizeViews_sum {s t : EngineState} (sizes : List ℚ)
    (h : resizeViews s sizes = some t) : sizesSum t.panes = t.containerSize := by
  simp only [resizeViews] at h
  split at h
  · rename_i hlen
    split at h
    · rename_i hsum
      injection h with h
      subst h
      dsimp only
      rw [setSizes_sum s.panes sizes hlen, hsum]
    · exact Option.noConfusion h
  · exact Option.noConfusion h

/-- A successful `distributeViewSizes` realizes the container size
exactly. -/
theorem distributeViewSizes_sum {s t : EngineState}
    (h : distributeViewSizes s = some t) : sizesSum t.panes = t.containerSize := by
  simp only [distributeViewSizes] at h
  cases hd : distFix (s.panes.length + 1)
      (s.panes.map (fun p => ((none : Option ℚ), p))) s.containerSize with
  | none => rw [hd] at h; exact Option.noConfusion h
  | some sizes =>
      rw [hd] at h
      injection h with h
      subst h
      dsimp only
      have hlen : sizes.length = s.panes.length := by
        have := distFix_length _ _ _ _ hd
        rw [this, List.length_map]
      rw [setSizes_sum s.panes sizes hlen]
      exact distFix_sum _ _ _ _ hd

/-- A successful `addView` preserves the size total. -/
theorem addView_sum {s t : EngineState} (p : EPane) (sizing : Sizing) (index : ℕ)
    (hs : sizesSum s.panes = s.containerSize)
    (h : addView s p sizing index = some t) : sizesSum t.panes = t.containerSize := by
  cases sizing with
  | Distribute =>
      simp only [addView] at h
      split at h
      · exact Option.noConfusion h
      · exact distributeViewSizes_sum h
  | Split neighborIndex =>
      simp only [addView] at h
      split at h
      · exact Option.noConfusion h
      · cases hnb : s.panes[neighborIndex]? with
        | none => rw [hnb] at h; exact Option.noConfusion h
        | some nb =>
            rw [hnb] at h
            injection h with h
            subst h
            dsimp only
            have hdec : sizesSum s.panes =
                sizesSum (s.panes.take neighborIndex) + nb.currentSize +
                  sizesSum (s.panes.drop (neighborIndex + 1)) := by
              conv_lhs => rw [list_decomp s.panes neighborIndex nb hnb]
              rw [sizesSum_append, sizesSum_cons]
              ring
            rw [insertAt_sum, sizesSum_append, sizesSum_cons]
            dsimp only
            linarith

/-- A successful `removeView` preserves the size total. -/
theorem removeView_sum {s t : EngineState} (index : ℕ)
    (hs : sizesSum s.panes = s.containerSize)
    (h : removeView s index = some t) : sizesSum t.panes = t.containerSize := by
  simp only [removeView] at h
  cases hidx : s.panes[index]? with
  | none => rw [hidx] at h; exact Option.noConfusion h
  | some p =>
      rw [hidx] at h
      dsimp only at h
      have hdec : sizesSum s.panes =
          sizesSum (s.panes.take index) + p.currentSize +
            sizesSum (s.panes.drop (index + 1)) := by
        conv_lhs => rw [list_decomp s.panes index p hidx]
        rw [sizesSum_append, sizesSum_cons]
        ring
      cases hrest : s.panes.take index ++ s.panes.drop (index + 1) with
      | nil =>
          rw [hrest] at h
          dsimp only at h
          split at h
          · rename_i hzero
            injection h with h
            subst h
            dsimp only
            rw [hzero]
            rfl
          · exact Option.noConfusion h
      | cons q qs =>
          rw [hrest] at h
          dsimp only at h
          injection h with h
          subst h
          dsimp only
          have hne : proportionalGrow (q :: qs) p.currentSize ≠ [] := by
            simp [proportionalGrow]
          rw [addToLast_sum _ _ hne]
          have hqs : sizesSum (q :: qs) =
              sizesSum (s.panes.take index) + sizesSum (s.panes.drop (index + 1)) := by
            rw [← hrest, sizesSum_append]
          linarith

/-- A successful sash adjustment preserves the size total. -/
theorem sashAdjust_sum {s t : EngineState} (index : ℕ) (delta : ℚ)
    (hs : sizesSum s.panes = s.containerSize)
    (h : sashAdjust s index delta = some t) : sizesSum t.panes = t.containerSize := by
  simp only [sashAdjust] at h
  split at h
  · have htd : sizesSum (s.panes.take (index + 1)) +
        sizesSum (s.panes.drop (index + 1)) = s.containerSize := by
      rw [← sizesSum_append, List.take_append_drop, hs]
    split at h
    · rename_i hdelta
      injection h with h
      subst h
      dsimp only
      rw [sizesSum_append, sizesSum_reverse, cascade_sum, cascade_sum,
        cascade_giving_exact _ _ _ hdelta, cascade_receiving_exact _ _ _ hdelta,
        sizesSum_reverse]
      linarith
    · rename_i hdelta
      have hd0 : 0 ≤ -delta := by
        rw [not_le] at hdelta
        linarith
      injection h with h
      subst h
      dsimp only
      rw [sizesSum_append, sizesSum_reverse, cascade_sum, cascade_sum,
        cascade_giving_exact _ _ _ hd0, cascade_receiving_exact _ _ _ hd0,
        sizesSum_reverse]
      linarith
  · exact Option.noConfusion h

/-- Every successful public operation preserves the exact sum invariant. -/
theorem step_sum {s t : EngineState} (op : EngineOp)
    (hs : sizesSum s.panes = s.containerSize)
    (h : step s op = some t) : sizesSum t.panes = t.containerSize := by
  cases op with
  | layoutOp newSize => exact layout_sum newSize hs h
  | resizeViewOp index size => exact resizeView_sum index size hs h
  | resizeViewsOp sizes => exact resizeViews_sum sizes h
  | addViewOp p sizing index => exact addView_sum p sizing index hs h
  | removeViewOp index => exact removeView_sum index hs h
  | sashAdjustOp index delta => exact sashAdjust_sum index delta hs h

/-- C4: in every engine state reachable through successful `layout`,
`resizeView`, `resizeViews`, `addView`, `removeView` and sash-adjustment
operations, the panes' current sizes sum to the container size within a
tolerance of the number of panes (the exact-arithmetic model keeps the
deviation at zero). -/
theorem C4_sum_invariant (s : EngineState) (h : Reachable s) :
    |sizesSum s.panes - s.containerSize| ≤ (s.panes.length : ℚ) := by
  have hx : sizesSum s.panes = s.containerSize := by
    induction h with
    | init panes => rfl
    | next op hr hstep ih => exact step_sum op ih hstep
  rw [hx, sub_self, abs_zero]
  exact_mod_cast Nat.zero_le _

/-- Witness for C4: a freshly seeded engine with one 100-wide pane. -/
theorem C4_sum_invariant_witness :
    |sizesSum (initState
        [{ minimumSize := 0, maximumSize := none, currentSize := 100 }]).panes -
      (initState
        [{ minimumSize := 0, maximumSize := none, currentSize := 100 }]).containerSize| ≤
      ((initState
        [{ minimumSize := 0, maximumSize := none, currentSize := 100 }]).panes.length : ℚ) :=
  C4_sum_invariant _ (Reachable.init _)

end Allotment
